import Mathlib

/-!
Shallow embedding of the Notes Service backend
(`src/notes_backend/src/api/main.py`).

Modelling choices, each tied to the source:

* A stored row (`NoteORM`) is a `Note` structure; the SQLite table is a
  `DB`: the list of live rows in insertion (rowid) order together with the
  next primary key to assign.  Timestamps (`datetime.utcnow()`) are `Nat`
  instants passed explicitly as a `now` argument to each mutating handler.
* Pydantic field validation (`Field(..., min_length=1, max_length=255)` on
  `NoteBase`/`NoteUpdate`) runs on the RAW submitted strings before the
  handler body executes; it is embedded as a boolean check performed before
  the handler logic, returning `ApiError.validationError` (HTTP 422) on
  failure.  Likewise the `Path(..., ge=1)` constraint on `note_id`.
* Python's `str.strip()` is `strip`: drop leading and trailing whitespace
  characters.
* `db.query(NoteORM).order_by(NoteORM.updated_at.desc()).all()` is embedded
  as a stable merge sort of the insertion-ordered rows by descending
  `updated_at`.
* `HTTPException` outcomes are the `Except ApiError` error branch; a
  handler that raises leaves the table untouched, which the embedding makes
  explicit in `stepOp`.
-/

namespace NotesApp

/-- Characters removed by `str.strip()` (whitespace). -/
def isWs (c : Char) : Bool := c.isWhitespace

/-- Drop leading whitespace, then trailing whitespace, from a character list. -/
def stripList (l : List Char) : List Char :=
  (((l.dropWhile isWs).reverse.dropWhile isWs)).reverse

/-- Python `str.strip()`: remove leading and trailing whitespace. -/
def strip (s : String) : String := ⟨stripList s.data⟩

/-- A string that is empty or consists only of whitespace. -/
def blank (s : String) : Bool := s.data.all isWs

/-- Pydantic constraint on `title`: `min_length=1, max_length=255`,
checked on the raw submitted string. -/
def validTitle (t : String) : Bool := 1 ≤ t.length && t.length ≤ 255

/-- Pydantic constraint on `content`: `min_length=1`, checked on the raw
submitted string. -/
def validContent (c : String) : Bool := 1 ≤ c.length

/-- Request body of POST and PUT (`NoteCreate`, inheriting `NoteBase`):
both fields required. -/
structure NoteCreate where
  title : String
  content : String
deriving Repr, DecidableEq

/-- Validation of a `NoteCreate` body (pydantic `NoteBase` field checks). -/
def NoteCreate.valid (p : NoteCreate) : Bool :=
  validTitle p.title && validContent p.content

/-- Request body of PATCH (`NoteUpdate`): both fields optional, but any
field present must satisfy the same constraints. -/
structure NoteUpdate where
  title : Option String
  content : Option String
deriving Repr, DecidableEq

/-- Validation of a `NoteUpdate` body (pydantic `NoteUpdate` field checks). -/
def NoteUpdate.valid (p : NoteUpdate) : Bool :=
  p.title.all validTitle && p.content.all validContent

/-- A persisted row of the `notes` table (`NoteORM` / `NoteOut`). -/
structure Note where
  id : Nat
  title : String
  content : String
  created_at : Nat
  updated_at : Nat
deriving Repr, DecidableEq

/-- The `notes` table: live rows in insertion (rowid) order, and the next
primary key the engine will assign.  SQLite integer primary keys start
at 1. -/
structure DB where
  rows : List Note
  nextId : Nat
deriving Repr, DecidableEq

/-- The table created at startup: no rows, first id will be 1. -/
def emptyDB : DB := ⟨[], 1⟩

/-- Error outcomes of the HTTP layer: 422 (pydantic / path validation)
and 404 (`HTTPException(status_code=404)`). -/
inductive ApiError where
  | validationError
  | notFoundError
deriving Repr, DecidableEq

/-- Embedding of `db.query(NoteORM).filter(NoteORM.id == note_id).first()`:
first row whose primary key matches. -/
def findNote (db : DB) (id : Nat) : Option Note :=
  db.rows.find? (fun n => n.id == id)

/-- Handler `create_note` (POST `/notes`): after body validation, persist a
row with both fields stripped and `created_at = updated_at = now`. -/
def create_note (p : NoteCreate) (now : Nat) (db : DB) :
    Except ApiError (Note × DB) :=
  if p.valid then
    let note : Note :=
      { id := db.nextId, title := strip p.title, content := strip p.content
        created_at := now, updated_at := now }
    .ok (note, ⟨db.rows ++ [note], db.nextId + 1⟩)
  else .error .validationError

/-- Comparator of `order_by(NoteORM.updated_at.desc())`. -/
def byUpdatedDesc (a b : Note) : Bool := b.updated_at ≤ a.updated_at

/-- Handler `list_notes` (GET `/notes`): all rows ordered by `updated_at`
descending; the SQL `ORDER BY` over the insertion-ordered table is embedded
as a stable merge sort. -/
def list_notes (db : DB) : List Note :=
  db.rows.mergeSort byUpdatedDesc

/-- Handler `get_note` (GET `/notes/{note_id}`): path validation `ge=1`,
then lookup, 404 when absent. -/
def get_note (id : Nat) (db : DB) : Except ApiError Note :=
  if 1 ≤ id then
    match findNote db id with
    | none => .error .notFoundError
    | some n => .ok n
  else .error .validationError

/-- Writing the mutated ORM object back: the row with the matching primary
key is replaced in place (rowid order is unchanged by an UPDATE). -/
def replaceNote (rows : List Note) (id : Nat) (n' : Note) : List Note :=
  rows.map (fun m => if m.id == id then n' else m)

/-- Handler `update_note_put` (PUT `/notes/{note_id}`): body and path
validation, lookup (404 when absent), then overwrite both stripped fields
and refresh `updated_at`. -/
def update_note_put (id : Nat) (p : NoteCreate) (now : Nat) (db : DB) :
    Except ApiError (Note × DB) :=
  if p.valid then
    if 1 ≤ id then
      match findNote db id with
      | none => .error .notFoundError
      | some n =>
        let n' : Note :=
          { n with title := strip p.title, content := strip p.content
                   updated_at := now }
        .ok (n', ⟨replaceNote db.rows id n', db.nextId⟩)
    else .error .validationError
  else .error .validationError

/-- Handler `update_note_patch` (PATCH `/notes/{note_id}`): body and path
validation, lookup (404 when absent); each supplied field is stripped and
written, the `updated` flag records whether any field was supplied, and
only then is `updated_at` refreshed and the row committed. -/
def update_note_patch (id : Nat) (p : NoteUpdate) (now : Nat) (db : DB) :
    Except ApiError (Note × DB) :=
  if p.valid then
    if 1 ≤ id then
      match findNote db id with
      | none => .error .notFoundError
      | some n =>
        let n₁ := match p.title with
          | some t => { n with title := strip t }
          | none => n
        let n₂ := match p.content with
          | some c => { n₁ with content := strip c }
          | none => n₁
        if p.title.isSome || p.content.isSome then
          let n' := { n₂ with updated_at := now }
          .ok (n', ⟨replaceNote db.rows id n', db.nextId⟩)
        else
          .ok (n₂, db)
    else .error .validationError
  else .error .validationError

/-- Handler `delete_note` (DELETE `/notes/{note_id}`): path validation,
lookup (404 when absent), then hard delete of the row. -/
def delete_note (id : Nat) (db : DB) : Except ApiError DB :=
  if 1 ≤ id then
    match findNote db id with
    | none => .error .notFoundError
    | some _ => .ok ⟨db.rows.filter (fun n => n.id != id), db.nextId⟩
  else .error .validationError

/-- One API request together with its payload. -/
inductive Op where
  | create (p : NoteCreate)
  | put (id : Nat) (p : NoteCreate)
  | patch (id : Nat) (p : NoteUpdate)
  | delete (id : Nat)
deriving Repr, DecidableEq

/-- Effect of one request on the stored table: a request that errors
(validation failure or 404) leaves the table unchanged, since the handler
raises before any write. -/
def stepOp (op : Op) (now : Nat) (db : DB) : DB :=
  match op with
  | .create p =>
    match create_note p now db with
    | .ok (_, db') => db'
    | .error _ => db
  | .put id p =>
    match update_note_put id p now db with
    | .ok (_, db') => db'
    | .error _ => db
  | .patch id p =>
    match update_note_patch id p now db with
    | .ok (_, db') => db'
    | .error _ => db
  | .delete id =>
    match delete_note id db with
    | .ok db' => db'
    | .error _ => db

/-- Run a sequence of timestamped requests from a given table state. -/
def runFrom (db : DB) : List (Op × Nat) → DB
  | [] => db
  | (op, now) :: rest => runFrom (stepOp op now db) rest

/-- Table state reached from the empty table by a sequence of requests. -/
def run (tr : List (Op × Nat)) : DB := runFrom emptyDB tr

/-- The request timestamps of a trace are non-decreasing and bounded below
by `t` (the wall clock never runs backwards during the trace). -/
def timesMono (t : Nat) : List (Op × Nat) → Bool
  | [] => true
  | (_, now) :: rest => t ≤ now && timesMono now rest

/-! ### Properties of `strip` -/

theorem stripList_eq_rdropWhile (l : List Char) :
    stripList l = List.rdropWhile isWs (l.dropWhile isWs) := rfl

theorem dropWhile_eq_self_of_head? {α : Type} {p : α → Bool} {l : List α}
    (h : ∀ c, l.head? = some c → p c = false) : l.dropWhile p = l := by
  cases l with
  | nil => rfl
  | cons a t => simp [List.dropWhile_cons, h a rfl]

theorem stripList_idem (l : List Char) : stripList (stripList l) = stripList l := by
  simp only [stripList_eq_rdropWhile]
  have hhead : ∀ c, (List.rdropWhile isWs (l.dropWhile isWs)).head? = some c →
      isWs c = false := by
    intro c hc
    obtain ⟨t, ht⟩ := List.rdropWhile_prefix isWs (l.dropWhile isWs)
    have hA : (l.dropWhile isWs).head? = some c := by
      rw [← ht, List.head?_append, hc]
      rfl
    have h2 := List.head?_dropWhile_not isWs l
    rw [hA] at h2
    exact h2
  rw [dropWhile_eq_self_of_head? hhead, List.rdropWhile_idempotent]

theorem strip_idem (s : String) : strip (strip s) = strip s := by
  show String.mk (stripList (stripList s.data)) = String.mk (stripList s.data)
  rw [stripList_idem]

theorem eq_empty_of_blank_of_stripped {s : String} (h1 : strip s = s)
    (h2 : blank s = true) : s = "" := by
  have hall : ∀ c ∈ s.data, isWs c := by
    simpa [blank, List.all_eq_true] using h2
  have hd : s.data.dropWhile isWs = [] := List.dropWhile_eq_nil_iff.mpr hall
  have hstr : strip s = "" := by
    show String.mk (stripList s.data) = ""
    rw [stripList_eq_rdropWhile, hd]
    rfl
  rw [← h1, hstr]

/-! ### Equational descriptions of the handlers -/

theorem create_note_valid {p : NoteCreate} (now : Nat) (db : DB)
    (hv : p.valid = true) :
    create_note p now db =
      .ok (⟨db.nextId, strip p.title, strip p.content, now, now⟩,
        ⟨db.rows ++ [⟨db.nextId, strip p.title, strip p.content, now, now⟩],
          db.nextId + 1⟩) := by
  simp [create_note, hv]

theorem create_note_invalid {p : NoteCreate} (now : Nat) (db : DB)
    (hv : p.valid = false) :
    create_note p now db = .error .validationError := by
  simp [create_note, hv]

theorem update_note_put_found {id : Nat} {p : NoteCreate} {db : DB} {n : Note}
    (now : Nat) (hv : p.valid = true) (hid : 1 ≤ id)
    (hf : findNote db id = some n) :
    update_note_put id p now db =
      .ok ({ n with title := strip p.title, content := strip p.content
                    updated_at := now },
        ⟨replaceNote db.rows id
            { n with title := strip p.title, content := strip p.content
                     updated_at := now }, db.nextId⟩) := by
  simp [update_note_put, hv, hid, hf]

theorem update_note_put_absent {id : Nat} {p : NoteCreate} {db : DB}
    (now : Nat) (hv : p.valid = true) (hid : 1 ≤ id)
    (hf : findNote db id = none) :
    update_note_put id p now db = .error .notFoundError := by
  simp [update_note_put, hv, hid, hf]

theorem update_note_patch_absent {id : Nat} {p : NoteUpdate} {db : DB}
    (now : Nat) (hv : p.valid = true) (hid : 1 ≤ id)
    (hf : findNote db id = none) :
    update_note_patch id p now db = .error .notFoundError := by
  simp [update_note_patch, hv, hid, hf]

theorem delete_note_found {id : Nat} {db : DB} {n : Note} (hid : 1 ≤ id)
    (hf : findNote db id = some n) :
    delete_note id db = .ok ⟨db.rows.filter (fun m => m.id != id), db.nextId⟩ := by
  simp [delete_note, hid, hf]

theorem delete_note_absent {id : Nat} {db : DB} (hid : 1 ≤ id)
    (hf : findNote db id = none) :
    delete_note id db = .error .notFoundError := by
  simp [delete_note, hid, hf]

/-! ### Helper facts about lookup and replacement -/

theorem mem_replaceNote {rows : List Note} {id : Nat} {n' m : Note}
    (h : m ∈ replaceNote rows id n') : m = n' ∨ m ∈ rows := by
  simp only [replaceNote, List.mem_map] at h
  obtain ⟨a, ha, hfa⟩ := h
  by_cases hid : (a.id == id) = true
  · left
    rw [← hfa, if_pos hid]
  · right
    rw [← hfa, if_neg hid]
    exact ha

theorem findNote_mem {db : DB} {id : Nat} {n : Note}
    (h : findNote db id = some n) : n ∈ db.rows :=
  List.mem_of_find?_eq_some h

theorem findNote_id {db : DB} {id : Nat} {n : Note}
    (h : findNote db id = some n) : n.id = id := by
  have := List.find?_some h
  simpa using this

/-- The row produced by a successful PATCH that supplied at least one
field: supplied fields are stripped and written, the rest kept, and
`updated_at` refreshed. -/
def patchNote (n : Note) (p : NoteUpdate) (now : Nat) : Note :=
  { n with
    title := (p.title.map strip).getD n.title
    content := (p.content.map strip).getD n.content
    updated_at := now }

theorem update_note_patch_found {id : Nat} {p : NoteUpdate} {db : DB} {n : Note}
    (now : Nat) (hv : p.valid = true) (hid : 1 ≤ id)
    (hf : findNote db id = some n) :
    update_note_patch id p now db =
      if p.title.isSome || p.content.isSome then
        .ok (patchNote n p now,
          ⟨replaceNote db.rows id (patchNote n p now), db.nextId⟩)
      else .ok (n, db) := by
  obtain ⟨pt, pc⟩ := p
  cases pt <;> cases pc <;>
    simp [update_note_patch, patchNote, hv, hid, hf]

/-! ### Invariants of reachable table states -/

/-- Structural invariant: the next primary key is at least 1 and strictly
above every live row's key, and every persisted field is already stripped. -/
def Inv (db : DB) : Prop :=
  1 ≤ db.nextId ∧
  (∀ n ∈ db.rows, n.id < db.nextId) ∧
  (∀ n ∈ db.rows, strip n.title = n.title ∧ strip n.content = n.content)

theorem inv_emptyDB : Inv emptyDB := by
  refine ⟨Nat.le_refl 1, ?_, ?_⟩ <;> intro n hn <;> simp [emptyDB] at hn

theorem inv_stepOp (op : Op) (now : Nat) {db : DB} (h : Inv db) :
    Inv (stepOp op now db) := by
  obtain ⟨h1, h2, h3⟩ := h
  cases op with
  | create p =>
    by_cases hv : p.valid = true
    · simp only [stepOp, create_note_valid now db hv]
      refine ⟨Nat.le_succ_of_le h1, ?_, ?_⟩
      · intro n hn
        rcases List.mem_append.mp hn with hn | hn
        · exact Nat.lt_succ_of_lt (h2 n hn)
        · rw [List.mem_singleton] at hn
          subst hn
          exact Nat.lt_succ_self _
      · intro n hn
        rcases List.mem_append.mp hn with hn | hn
        · exact h3 n hn
        · rw [List.mem_singleton] at hn
          subst hn
          exact ⟨strip_idem _, strip_idem _⟩
    · have hv' : p.valid = false := by simpa using hv
      simp only [stepOp, create_note_invalid now db hv']
      exact ⟨h1, h2, h3⟩
  | put id p =>
    by_cases hv : p.valid = true
    · by_cases hid : 1 ≤ id
      · cases hf : findNote db id with
        | none =>
          simp only [stepOp, update_note_put_absent now hv hid hf]
          exact ⟨h1, h2, h3⟩
        | some n =>
          simp only [stepOp, update_note_put_found now hv hid hf]
          refine ⟨h1, ?_, ?_⟩
          · intro m hm
            rcases mem_replaceNote hm with hm | hm
            · subst hm
              exact h2 n (findNote_mem hf)
            · exact h2 m hm
          · intro m hm
            rcases mem_replaceNote hm with hm | hm
            · subst hm
              exact ⟨strip_idem _, strip_idem _⟩
            · exact h3 m hm
      · have : update_note_put id p now db = .error .validationError := by
          simp [update_note_put, hv, hid]
        simp only [stepOp, this]
        exact ⟨h1, h2, h3⟩
    · have : update_note_put id p now db = .error .validationError := by
        simp [update_note_put, Bool.eq_false_iff.mpr hv]
      simp only [stepOp, this]
      exact ⟨h1, h2, h3⟩
  | patch id p =>
    by_cases hv : p.valid = true
    · by_cases hid : 1 ≤ id
      · cases hf : findNote db id with
        | none =>
          simp only [stepOp, update_note_patch_absent now hv hid hf]
          exact ⟨h1, h2, h3⟩
        | some n =>
          simp only [stepOp, update_note_patch_found now hv hid hf]
          by_cases hsup : (p.title.isSome || p.content.isSome) = true
          · simp only [hsup, if_pos]
            refine ⟨h1, ?_, ?_⟩
            · intro m hm
              rcases mem_replaceNote hm with hm | hm
              · subst hm
                exact h2 n (findNote_mem hf)
              · exact h2 m hm
            · intro m hm
              rcases mem_replaceNote hm with hm | hm
              · subst hm
                obtain ⟨hn3, hn3'⟩ := h3 n (findNote_mem hf)
                refine ⟨?_, ?_⟩
                · show strip ((p.title.map strip).getD n.title) =
                    (p.title.map strip).getD n.title
                  cases p.title with
                  | none => simpa using hn3
                  | some t => simpa using strip_idem t
                · show strip ((p.content.map strip).getD n.content) =
                    (p.content.map strip).getD n.content
                  cases p.content with
                  | none => simpa using hn3'
                  | some c => simpa using strip_idem c
              · exact h3 m hm
          · simp only [Bool.not_eq_true] at hsup
            simp only [hsup, Bool.false_eq_true, if_false]
            exact ⟨h1, h2, h3⟩
      · have : update_note_patch id p now db = .error .validationError := by
          simp [update_note_patch, hv, hid]
        simp only [stepOp, this]
        exact ⟨h1, h2, h3⟩
    · have : update_note_patch id p now db = .error .validationError := by
        simp [update_note_patch, Bool.eq_false_iff.mpr hv]
      simp only [stepOp, this]
      exact ⟨h1, h2, h3⟩
  | delete id =>
    by_cases hid : 1 ≤ id
    · cases hf : findNote db id with
      | none =>
        simp only [stepOp, delete_note_absent hid hf]
        exact ⟨h1, h2, h3⟩
      | some n =>
        simp only [stepOp, delete_note_found hid hf]
        refine ⟨h1, ?_, ?_⟩
        · intro m hm
          exact h2 m (List.mem_of_mem_filter hm)
        · intro m hm
          exact h3 m (List.mem_of_mem_filter hm)
    · have : delete_note id db = .error .validationError := by
        simp [delete_note, hid]
      simp only [stepOp, this]
      exact ⟨h1, h2, h3⟩

theorem inv_runFrom {db : DB} (h : Inv db) (tr : List (Op × Nat)) :
    Inv (runFrom db tr) := by
  induction tr generalizing db with
  | nil => exact h
  | cons step rest ih =>
    obtain ⟨op, now⟩ := step
    exact ih (inv_stepOp op now h)

theorem inv_run (tr : List (Op × Nat)) : Inv (run tr) :=
  inv_runFrom inv_emptyDB tr

/-! ### Timestamp invariant -/

/-- Every live row was created no later than it was last updated, and no
row has been touched after instant `t`. -/
def TimesOK (db : DB) (t : Nat) : Prop :=
  ∀ n ∈ db.rows, n.created_at ≤ n.updated_at ∧ n.updated_at ≤ t

theorem timesOK_stepOp (op : Op) (now : Nat) {db : DB} {t : Nat}
    (h : TimesOK db t) (hle : t ≤ now) : TimesOK (stepOp op now db) now := by
  have hold : ∀ n ∈ db.rows, n.created_at ≤ n.updated_at ∧ n.updated_at ≤ now :=
    fun n hn => ⟨(h n hn).1, Nat.le_trans (h n hn).2 hle⟩
  cases op with
  | create p =>
    by_cases hv : p.valid = true
    · simp only [stepOp, create_note_valid now db hv]
      intro n hn
      rcases List.mem_append.mp hn with hn | hn
      · exact hold n hn
      · rw [List.mem_singleton] at hn
        subst hn
        exact ⟨Nat.le_refl now, Nat.le_refl now⟩
    · have hv' : p.valid = false := by simpa using hv
      simp only [stepOp, create_note_invalid now db hv']
      exact hold
  | put id p =>
    by_cases hv : p.valid = true
    · by_cases hid : 1 ≤ id
      · cases hf : findNote db id with
        | none =>
          simp only [stepOp, update_note_put_absent now hv hid hf]
          exact hold
        | some n =>
          simp only [stepOp, update_note_put_found now hv hid hf]
          intro m hm
          rcases mem_replaceNote hm with hm | hm
          · subst hm
            exact ⟨Nat.le_trans (hold n (findNote_mem hf)).1
              (hold n (findNote_mem hf)).2, Nat.le_refl now⟩
          · exact hold m hm
      · have : update_note_put id p now db = .error .validationError := by
          simp [update_note_put, hv, hid]
        simp only [stepOp, this]
        exact hold
    · have : update_note_put id p now db = .error .validationError := by
        simp [update_note_put, Bool.eq_false_iff.mpr hv]
      simp only [stepOp, this]
      exact hold
  | patch id p =>
    by_cases hv : p.valid = true
    · by_cases hid : 1 ≤ id
      · cases hf : findNote db id with
        | none =>
          simp only [stepOp, update_note_patch_absent now hv hid hf]
          exact hold
        | some n =>
          simp only [stepOp, update_note_patch_found now hv hid hf]
          by_cases hsup : (p.title.isSome || p.content.isSome) = true
          · simp only [hsup, if_pos]
            intro m hm
            rcases mem_replaceNote hm with hm | hm
            · subst hm
              exact ⟨Nat.le_trans (hold n (findNote_mem hf)).1
                (hold n (findNote_mem hf)).2, Nat.le_refl now⟩
            · exact hold m hm
          · simp only [Bool.not_eq_true] at hsup
            simp only [hsup, Bool.false_eq_true, if_false]
            exact hold
      · have : update_note_patch id p now db = .error .validationError := by
          simp [update_note_patch, hv, hid]
        simp only [stepOp, this]
        exact hold
    · have : update_note_patch id p now db = .error .validationError := by
        simp [update_note_patch, Bool.eq_false_iff.mpr hv]
      simp only [stepOp, this]
      exact hold
  | delete id =>
    by_cases hid : 1 ≤ id
    · cases hf : findNote db id with
      | none =>
        simp only [stepOp, delete_note_absent hid hf]
        exact hold
      | some n =>
        simp only [stepOp, delete_note_found hid hf]
        intro m hm
        exact hold m (List.mem_of_mem_filter hm)
    · have : delete_note id db = .error .validationError := by
        simp [delete_note, hid]
      simp only [stepOp, this]
      exact hold

theorem timesOK_runFrom {db : DB} {t : Nat} {tr : List (Op × Nat)}
    (h : TimesOK db t) (hm : timesMono t tr = true) :
    ∀ n ∈ (runFrom db tr).rows, n.created_at ≤ n.updated_at := by
  induction tr generalizing db t with
  | nil => exact fun n hn => (h n hn).1
  | cons step rest ih =>
    obtain ⟨op, now⟩ := step
    simp only [timesMono, Bool.and_eq_true, decide_eq_true_eq] at hm
    exact ih (timesOK_stepOp op now h hm.1) hm.2

/-! ### Claims -/

/-- Claim C1, counterexample: creating a note whose submitted title is the
single space `" "` succeeds (the raw string has length 1, so pydantic's
`min_length=1` passes), and the persisted title is the empty string — an
empty string IS persisted in a reachable state, contrary to the claim. -/
theorem C1_counterexample :
    (run [(Op.create ⟨" ", "x"⟩, 0)]).rows.map Note.title = [""] ∧
    blank "" = true := by
  exact ⟨rfl, rfl⟩

/-- Claim C1 (amended): in every reachable stored state, no persisted
title or content is a NONEMPTY whitespace-only string; a blank persisted
field can only be the empty string (reachable via a whitespace-only
submission of raw length at least 1, which is trimmed to empty before
storage). -/
theorem C1_no_nonempty_whitespace_only_fields (tr : List (Op × Nat))
    (n : Note) (hn : n ∈ (run tr).rows) :
    (blank n.title = true → n.title = "") ∧
    (blank n.content = true → n.content = "") := by
  obtain ⟨-, -, h3⟩ := inv_run tr
  obtain ⟨ht, hc⟩ := h3 n hn
  exact ⟨fun hb => eq_empty_of_blank_of_stripped ht hb,
    fun hb => eq_empty_of_blank_of_stripped hc hb⟩

/-- Witness for the amended C1 at a concrete reachable state. -/
theorem C1_witness :
    (⟨1, "a", "b", 0, 0⟩ : Note) ∈ (run [(Op.create ⟨"a", "b"⟩, 0)]).rows ∧
    ((blank (⟨1, "a", "b", 0, 0⟩ : Note).title = true →
        (⟨1, "a", "b", 0, 0⟩ : Note).title = "") ∧
      (blank (⟨1, "a", "b", 0, 0⟩ : Note).content = true →
        (⟨1, "a", "b", 0, 0⟩ : Note).content = "")) :=
  ⟨by decide, C1_no_nonempty_whitespace_only_fields
    [(Op.create ⟨"a", "b"⟩, 0)] ⟨1, "a", "b", 0, 0⟩ (by decide)⟩

/-- Claim C2, counterexample: the submitted title `" "` is out of bounds
after trimming (trimmed length 0), yet Create does NOT fail — validation
is applied to the raw submitted strings, before trimming. -/
theorem C2_counterexample :
    create_note ⟨" ", "x"⟩ 0 emptyDB =
      .ok (⟨1, "", "x", 0, 0⟩, ⟨[⟨1, "", "x", 0, 0⟩], 2⟩) ∧
    (strip " ").length = 0 := by
  exact ⟨rfl, rfl⟩

/-- Claim C2 (amended): Create fails with a ValidationError (before any
storage write) exactly when the RAW submitted title is not 1–255
characters or the RAW submitted content is empty; the length bounds are
judged on the submitted strings, and trimming happens only after
validation. -/
theorem C2_validation_on_raw_lengths (p : NoteCreate) (now : Nat) (db : DB) :
    create_note p now db = Except.error ApiError.validationError ↔
      ¬(1 ≤ p.title.length ∧ p.title.length ≤ 255 ∧ 1 ≤ p.content.length) := by
  have hval : p.valid = true ↔
      (1 ≤ p.title.length ∧ p.title.length ≤ 255 ∧ 1 ≤ p.content.length) := by
    simp [NoteCreate.valid, validTitle, validContent, and_assoc]
  by_cases hv : p.valid = true
  · rw [create_note_valid now db hv]
    simp [hval.mp hv]
  · rw [create_note_invalid now db (Bool.eq_false_iff.mpr hv)]
    simp only [hval] at hv
    simp [hv]

/-- Claim C3: from any reachable state, Create with a valid body followed
by Get with the returned id yields exactly the created note, whose fields
are the trimmed inputs and whose two timestamps coincide. -/
theorem C3_create_then_get (tr : List (Op × Nat)) (p : NoteCreate) (now : Nat)
    (hv : p.valid = true) :
    ∃ n db', create_note p now (run tr) = .ok (n, db') ∧
      get_note n.id db' = .ok n ∧
      n.title = strip p.title ∧ n.content = strip p.content ∧
      n.created_at = n.updated_at := by
  obtain ⟨h1, h2, -⟩ := inv_run tr
  refine ⟨⟨(run tr).nextId, strip p.title, strip p.content, now, now⟩,
    ⟨(run tr).rows ++ [⟨(run tr).nextId, strip p.title, strip p.content, now, now⟩],
      (run tr).nextId + 1⟩,
    create_note_valid now (run tr) hv, ?_, rfl, rfl, rfl⟩
  have hfind : findNote
      ⟨(run tr).rows ++ [⟨(run tr).nextId, strip p.title, strip p.content, now, now⟩],
        (run tr).nextId + 1⟩ (run tr).nextId
      = some ⟨(run tr).nextId, strip p.title, strip p.content, now, now⟩ := by
    simp only [findNote, List.find?_append]
    have hnone : (run tr).rows.find? (fun n => n.id == (run tr).nextId) = none := by
      rw [List.find?_eq_none]
      intro x hx
      simp only [beq_iff_eq]
      exact Nat.ne_of_lt (h2 x hx)
    rw [hnone]
    simp
  simp [get_note, h1, hfind]

/-- Witness for C3: create on the empty table. -/
theorem C3_witness :
    NoteCreate.valid ⟨"a", "b"⟩ = true ∧
    (∃ n db', create_note ⟨"a", "b"⟩ 0 (run []) = .ok (n, db') ∧
      get_note n.id db' = .ok n ∧
      n.title = strip "a" ∧ n.content = strip "b" ∧
      n.created_at = n.updated_at) :=
  ⟨by decide, C3_create_then_get [] ⟨"a", "b"⟩ 0 (by decide)⟩

theorem byUpdatedDesc_trans : ∀ a b c : Note,
    byUpdatedDesc a b → byUpdatedDesc b c → byUpdatedDesc a c := by
  intro a b c hab hbc
  simp only [byUpdatedDesc, decide_eq_true_eq] at hab hbc ⊢
  omega

theorem byUpdatedDesc_total : ∀ a b : Note,
    byUpdatedDesc a b || byUpdatedDesc b a := by
  intro a b
  simp only [byUpdatedDesc, Bool.or_eq_true, decide_eq_true_eq]
  omega

/-- Claim C4: List returns a permutation of the stored rows, ordered by
`updated_at` descending; rows with equal `updated_at` keep their insertion
order (the sort is stable: filtering any tie class out of the output gives
exactly the insertion-ordered tie class); and an empty table yields the
empty sequence. -/
theorem C4_list_ordered_stable (db : DB) :
    (list_notes db).Perm db.rows ∧
    (list_notes db).Pairwise (fun a b => b.updated_at ≤ a.updated_at) ∧
    (∀ t, (list_notes db).filter (fun n => n.updated_at == t) =
      db.rows.filter (fun n => n.updated_at == t)) ∧
    (db.rows = [] → list_notes db = []) := by
  refine ⟨List.mergeSort_perm db.rows byUpdatedDesc, ?_, ?_, ?_⟩
  · have h := List.sorted_mergeSort byUpdatedDesc_trans byUpdatedDesc_total db.rows
    exact h.imp (fun hab => by simpa [byUpdatedDesc] using hab)
  · intro t
    have hpw : (db.rows.filter (fun n => n.updated_at == t)).Pairwise
        (fun a b => byUpdatedDesc a b = true) := by
      apply List.pairwise_of_forall_mem_list
      intro a ha b hb
      have ha' : a.updated_at = t := by simpa using (List.mem_filter.mp ha).2
      have hb' : b.updated_at = t := by simpa using (List.mem_filter.mp hb).2
      simp [byUpdatedDesc, ha', hb']
    have hsub2 := List.sublist_mergeSort byUpdatedDesc_trans byUpdatedDesc_total
      hpw (List.filter_sublist db.rows)
    have hsub3 := hsub2.filter (fun n => n.updated_at == t)
    simp only [List.filter_filter, Bool.and_self] at hsub3
    have hlen : (db.rows.filter (fun n => n.updated_at == t)).length =
        ((db.rows.mergeSort byUpdatedDesc).filter
          (fun n => n.updated_at == t)).length :=
      (((List.mergeSort_perm db.rows byUpdatedDesc).filter _).length_eq).symm
    exact (hsub3.eq_of_length hlen).symm
  · intro h
    simp [list_notes, h]

/-- Witness for C4 at a concrete table with a tie on `updated_at`. -/
theorem C4_witness :
    (list_notes ⟨[⟨1, "a", "x", 0, 0⟩, ⟨2, "b", "y", 0, 0⟩], 3⟩).Perm
      [⟨1, "a", "x", 0, 0⟩, ⟨2, "b", "y", 0, 0⟩] ∧
    (list_notes ⟨[⟨1, "a", "x", 0, 0⟩, ⟨2, "b", "y", 0, 0⟩], 3⟩).Pairwise
      (fun a b => b.updated_at ≤ a.updated_at) ∧
    (∀ t, (list_notes ⟨[⟨1, "a", "x", 0, 0⟩, ⟨2, "b", "y", 0, 0⟩], 3⟩).filter
        (fun n => n.updated_at == t) =
      [⟨1, "a", "x", 0, 0⟩, ⟨2, "b", "y", 0, 0⟩].filter
        (fun n => n.updated_at == t)) ∧
    (([⟨1, "a", "x", 0, 0⟩, ⟨2, "b", "y", 0, 0⟩] : List Note) = [] →
      list_notes ⟨[⟨1, "a", "x", 0, 0⟩, ⟨2, "b", "y", 0, 0⟩], 3⟩ = []) :=
  C4_list_ordered_stable ⟨[⟨1, "a", "x", 0, 0⟩, ⟨2, "b", "y", 0, 0⟩], 3⟩

/-- Claim C5: an id that is at least 1 (path-valid) but matches no stored
row makes Get, UpdateFull, UpdatePartial (with well-formed bodies) and
Delete fail with NotFoundError, and each of these requests leaves the
stored table unchanged; a deleted id matches no row, so a second Delete of
it fails the same way. -/
theorem C5_not_found (db : DB) (id : Nat) (p : NoteCreate) (q : NoteUpdate)
    (now : Nat) (hid : 1 ≤ id) (hf : findNote db id = none)
    (hp : p.valid = true) (hq : q.valid = true) :
    get_note id db = .error .notFoundError ∧
    update_note_put id p now db = .error .notFoundError ∧
    update_note_patch id q now db = .error .notFoundError ∧
    delete_note id db = .error .notFoundError ∧
    stepOp (Op.put id p) now db = db ∧
    stepOp (Op.patch id q) now db = db ∧
    stepOp (Op.delete id) now db = db := by
  refine ⟨?_, update_note_put_absent now hp hid hf,
    update_note_patch_absent now hq hid hf,
    delete_note_absent hid hf, ?_, ?_, ?_⟩
  · simp [get_note, hid, hf]
  · simp only [stepOp, update_note_put_absent now hp hid hf]
  · simp only [stepOp, update_note_patch_absent now hq hid hf]
  · simp only [stepOp, delete_note_absent hid hf]

/-- Witness for C5: id 7 on a table holding only id 1 (as after deleting
id 7 or never creating it). -/
theorem C5_witness :
    1 ≤ 7 ∧ findNote ⟨[⟨1, "a", "b", 0, 0⟩], 2⟩ 7 = none ∧
    NoteCreate.valid ⟨"t", "c"⟩ = true ∧
    NoteUpdate.valid ⟨some "t", none⟩ = true ∧
    (get_note 7 ⟨[⟨1, "a", "b", 0, 0⟩], 2⟩ = .error .notFoundError ∧
      update_note_put 7 ⟨"t", "c"⟩ 5 ⟨[⟨1, "a", "b", 0, 0⟩], 2⟩ =
        .error .notFoundError ∧
      update_note_patch 7 ⟨some "t", none⟩ 5 ⟨[⟨1, "a", "b", 0, 0⟩], 2⟩ =
        .error .notFoundError ∧
      delete_note 7 ⟨[⟨1, "a", "b", 0, 0⟩], 2⟩ = .error .notFoundError ∧
      stepOp (Op.put 7 ⟨"t", "c"⟩) 5 ⟨[⟨1, "a", "b", 0, 0⟩], 2⟩ =
        ⟨[⟨1, "a", "b", 0, 0⟩], 2⟩ ∧
      stepOp (Op.patch 7 ⟨some "t", none⟩) 5 ⟨[⟨1, "a", "b", 0, 0⟩], 2⟩ =
        ⟨[⟨1, "a", "b", 0, 0⟩], 2⟩ ∧
      stepOp (Op.delete 7) 5 ⟨[⟨1, "a", "b", 0, 0⟩], 2⟩ =
        ⟨[⟨1, "a", "b", 0, 0⟩], 2⟩) :=
  ⟨by decide, by decide, by decide, by decide,
    C5_not_found ⟨[⟨1, "a", "b", 0, 0⟩], 2⟩ 7 ⟨"t", "c"⟩ ⟨some "t", none⟩ 5
      (by decide) (by decide) (by decide) (by decide)⟩

/-- Claim C8: in every state reached by a trace whose request timestamps
never decrease (the wall clock is monotone), every stored note satisfies
`created_at ≤ updated_at`: Create sets both to the same instant, and the
two update operations only move `updated_at` to the current instant. -/
theorem C8_updated_at_ge_created_at (tr : List (Op × Nat))
    (hm : timesMono 0 tr = true) (n : Note) (hn : n ∈ (run tr).rows) :
    n.created_at ≤ n.updated_at :=
  timesOK_runFrom (fun m hmem => by simp [emptyDB] at hmem) hm n hn

/-- Witness for C8 on a concrete trace: create at instant 0, full update
at instant 1. -/
theorem C8_witness :
    timesMono 0 [(Op.create ⟨"a", "b"⟩, 0), (Op.put 1 ⟨"c", "d"⟩, 1)] = true ∧
    (⟨1, "c", "d", 0, 1⟩ : Note) ∈
      (run [(Op.create ⟨"a", "b"⟩, 0), (Op.put 1 ⟨"c", "d"⟩, 1)]).rows ∧
    (⟨1, "c", "d", 0, 1⟩ : Note).created_at ≤
      (⟨1, "c", "d", 0, 1⟩ : Note).updated_at :=
  ⟨by decide, by decide,
    C8_updated_at_ge_created_at
      [(Op.create ⟨"a", "b"⟩, 0), (Op.put 1 ⟨"c", "d"⟩, 1)]
      (by decide) ⟨1, "c", "d", 0, 1⟩ (by decide)⟩

/-- Claim C6: a PATCH of an existing note overwrites exactly the supplied
fields (stripped), keeps the unsupplied field, the id and `created_at`
unchanged, refreshes `updated_at` precisely when at least one field is
supplied (a body supplying neither field returns the record and the table
entirely unchanged), and leaves every other row in place. -/
theorem C6_patch_frame (db : DB) (id : Nat) (p : NoteUpdate) (now : Nat)
    (n : Note) (hv : p.valid = true) (hid : 1 ≤ id)
    (hf : findNote db id = some n) :
    ∃ n' db', update_note_patch id p now db = .ok (n', db') ∧
      n'.id = n.id ∧ n'.created_at = n.created_at ∧
      n'.title = (p.title.map strip).getD n.title ∧
      n'.content = (p.content.map strip).getD n.content ∧
      n'.updated_at = (if p.title.isSome || p.content.isSome then now
        else n.updated_at) ∧
      (p.title = none ∧ p.content = none → n' = n ∧ db' = db) ∧
      (∀ m ∈ db.rows, m.id ≠ id → m ∈ db'.rows) := by
  rw [update_note_patch_found now hv hid hf]
  by_cases hsup : (p.title.isSome || p.content.isSome) = true
  · rw [if_pos hsup]
    refine ⟨patchNote n p now, _, rfl, rfl, rfl, rfl, rfl,
      by rw [if_pos hsup]; rfl, ?_, ?_⟩
    · rintro ⟨h1', h2'⟩
      rw [h1', h2'] at hsup
      simp at hsup
    · intro m hm hne
      have hcond : (m.id == id) = false := beq_eq_false_iff_ne.mpr hne
      have h := List.mem_map_of_mem
        (fun x => if x.id == id then patchNote n p now else x) hm
      simpa [replaceNote, hcond] using h
  · rw [if_neg hsup]
    have ht : p.title = none := by
      cases htt : p.title with
      | none => rfl
      | some t =>
        exact absurd (by simp [htt]) hsup
    have hc : p.content = none := by
      cases hcc : p.content with
      | none => rfl
      | some c =>
        exact absurd (by simp [hcc]) hsup
    refine ⟨n, db, rfl, rfl, rfl, ?_, ?_, ?_, fun _ => ⟨rfl, rfl⟩,
      fun m hm _ => hm⟩
    · simp [ht]
    · simp [hc]
    · simp [ht, hc]

/-- Witness for C6: patch only the title of the sole stored note. -/
theorem C6_witness :
    NoteUpdate.valid ⟨some " t ", none⟩ = true ∧ 1 ≤ 1 ∧
    findNote ⟨[⟨1, "a", "b", 0, 0⟩], 2⟩ 1 = some ⟨1, "a", "b", 0, 0⟩ ∧
    (∃ n' db', update_note_patch 1 ⟨some " t ", none⟩ 5
        ⟨[⟨1, "a", "b", 0, 0⟩], 2⟩ = .ok (n', db') ∧
      n'.id = (⟨1, "a", "b", 0, 0⟩ : Note).id ∧
      n'.created_at = (⟨1, "a", "b", 0, 0⟩ : Note).created_at ∧
      n'.title = ((⟨some " t ", none⟩ : NoteUpdate).title.map strip).getD
        (⟨1, "a", "b", 0, 0⟩ : Note).title ∧
      n'.content = ((⟨some " t ", none⟩ : NoteUpdate).content.map strip).getD
        (⟨1, "a", "b", 0, 0⟩ : Note).content ∧
      n'.updated_at = (if (⟨some " t ", none⟩ : NoteUpdate).title.isSome ||
          (⟨some " t ", none⟩ : NoteUpdate).content.isSome then 5
        else (⟨1, "a", "b", 0, 0⟩ : Note).updated_at) ∧
      ((⟨some " t ", none⟩ : NoteUpdate).title = none ∧
          (⟨some " t ", none⟩ : NoteUpdate).content = none →
        n' = ⟨1, "a", "b", 0, 0⟩ ∧ db' = ⟨[⟨1, "a", "b", 0, 0⟩], 2⟩) ∧
      (∀ m ∈ (⟨[⟨1, "a", "b", 0, 0⟩], 2⟩ : DB).rows, m.id ≠ 1 →
        m ∈ db'.rows)) :=
  ⟨by decide, by decide, by decide,
    C6_patch_frame ⟨[⟨1, "a", "b", 0, 0⟩], 2⟩ 1 ⟨some " t ", none⟩ 5
      ⟨1, "a", "b", 0, 0⟩ (by decide) (by decide) (by decide)⟩

/-- Claim C7: a PUT of an existing note with a valid body overwrites both
fields with their stripped values, sets `updated_at` to the current
instant unconditionally (even if the submitted values equal the stored
ones), keeps id and `created_at`, stores the returned record, and leaves
every other row in place. -/
theorem C7_put_overwrites (db : DB) (id : Nat) (p : NoteCreate) (now : Nat)
    (n : Note) (hv : p.valid = true) (hid : 1 ≤ id)
    (hf : findNote db id = some n) :
    ∃ n' db', update_note_put id p now db = .ok (n', db') ∧
      n'.title = strip p.title ∧ n'.content = strip p.content ∧
      n'.updated_at = now ∧ n'.id = n.id ∧ n'.created_at = n.created_at ∧
      n' ∈ db'.rows ∧ db'.nextId = db.nextId ∧
      (∀ m ∈ db.rows, m.id ≠ id → m ∈ db'.rows) := by
  rw [update_note_put_found now hv hid hf]
  refine ⟨_, _, rfl, rfl, rfl, rfl, rfl, rfl, ?_, rfl, ?_⟩
  · have hcond : (n.id == id) = true := beq_iff_eq.mpr (findNote_id hf)
    have h := List.mem_map_of_mem
      (fun x => if x.id == id then
        { n with title := strip p.title, content := strip p.content
                 updated_at := now } else x) (findNote_mem hf)
    simpa [replaceNote, hcond] using h
  · intro m hm hne
    have hcond : (m.id == id) = false := beq_eq_false_iff_ne.mpr hne
    have h := List.mem_map_of_mem
      (fun x => if x.id == id then
        { n with title := strip p.title, content := strip p.content
                 updated_at := now } else x) hm
    simpa [replaceNote, hcond] using h

/-- Witness for C7: full update of the sole stored note with values equal
to the stored ones still bumps `updated_at` to the new instant. -/
theorem C7_witness :
    NoteCreate.valid ⟨"a", "b"⟩ = true ∧ 1 ≤ 1 ∧
    findNote ⟨[⟨1, "a", "b", 0, 0⟩], 2⟩ 1 = some ⟨1, "a", "b", 0, 0⟩ ∧
    (∃ n' db', update_note_put 1 ⟨"a", "b"⟩ 5 ⟨[⟨1, "a", "b", 0, 0⟩], 2⟩ =
        .ok (n', db') ∧
      n'.title = strip "a" ∧ n'.content = strip "b" ∧
      n'.updated_at = 5 ∧ n'.id = (⟨1, "a", "b", 0, 0⟩ : Note).id ∧
      n'.created_at = (⟨1, "a", "b", 0, 0⟩ : Note).created_at ∧
      n' ∈ db'.rows ∧ db'.nextId = (⟨[⟨1, "a", "b", 0, 0⟩], 2⟩ : DB).nextId ∧
      (∀ m ∈ (⟨[⟨1, "a", "b", 0, 0⟩], 2⟩ : DB).rows, m.id ≠ 1 →
        m ∈ db'.rows)) :=
  ⟨by decide, by decide, by decide,
    C7_put_overwrites ⟨[⟨1, "a", "b", 0, 0⟩], 2⟩ 1 ⟨"a", "b"⟩ 5
      ⟨1, "a", "b", 0, 0⟩ (by decide) (by decide) (by decide)⟩

/-- Claim C9: on an existing note, PATCH supplying both fields computes
exactly the same result — same returned note, same resulting table — as
PUT with those fields: the two update handlers coincide when every field
is supplied. -/
theorem C9_patch_full_eq_put (db : DB) (id : Nat) (t c : String) (now : Nat)
    (n : Note) (hv : NoteCreate.valid ⟨t, c⟩ = true) (hid : 1 ≤ id)
    (hf : findNote db id = some n) :
    update_note_patch id ⟨some t, some c⟩ now db =
      update_note_put id ⟨t, c⟩ now db := by
  simp [update_note_patch, update_note_put, NoteUpdate.valid,
    NoteCreate.valid, Option.all]

/-- Witness for C9 on a concrete table. -/
theorem C9_witness :
    NoteCreate.valid ⟨"t", "c"⟩ = true ∧ 1 ≤ 1 ∧
    findNote ⟨[⟨1, "a", "b", 0, 0⟩], 2⟩ 1 = some ⟨1, "a", "b", 0, 0⟩ ∧
    update_note_patch 1 ⟨some "t", some "c"⟩ 5 ⟨[⟨1, "a", "b", 0, 0⟩], 2⟩ =
      update_note_put 1 ⟨"t", "c"⟩ 5 ⟨[⟨1, "a", "b", 0, 0⟩], 2⟩ :=
  ⟨by decide, by decide, by decide,
    C9_patch_full_eq_put ⟨[⟨1, "a", "b", 0, 0⟩], 2⟩ 1 "t" "c" 5
      ⟨1, "a", "b", 0, 0⟩ (by decide) (by decide) (by decide)⟩

/-- Claim C10: in every reachable stored state, every persisted title and
content equals its own trim — Create, UpdateFull and UpdatePartial strip
each field before writing it, and stripping is idempotent. -/
theorem C10_stored_fields_stripped (tr : List (Op × Nat)) (n : Note)
    (hn : n ∈ (run tr).rows) :
    strip n.title = n.title ∧ strip n.content = n.content :=
  (inv_run tr).2.2 n hn

/-- Witness for C10 at a concrete reachable state: the stored note of a
create with untrimmed input `"  a "`. -/
theorem C10_witness :
    (⟨1, "a", "b", 0, 0⟩ : Note) ∈ (run [(Op.create ⟨"  a ", "b"⟩, 0)]).rows ∧
    strip (⟨1, "a", "b", 0, 0⟩ : Note).title = (⟨1, "a", "b", 0, 0⟩ : Note).title ∧
    strip (⟨1, "a", "b", 0, 0⟩ : Note).content = (⟨1, "a", "b", 0, 0⟩ : Note).content := by
  refine ⟨by decide, C10_stored_fields_stripped
    [(Op.create ⟨"  a ", "b"⟩, 0)] ⟨1, "a", "b", 0, 0⟩ (by decide)⟩

end NotesApp
